import Mathlib

/-!
Verification of the Loreline C++ bridge (`linc_Loreline.cpp`).

This file gives a shallow embedding of the bridge layer between the public
C++ API (`Loreline.h`) and the embedded narrative engine: the ref-counted
`Loreline_String`, the interpreter handle with its single pending
continuation, the worker thread's task queue, the dispatch-out function
queue, the call scheduler, and the boundary entry points
(`Loreline_parse`, `Loreline_play`, `Loreline_resume`, `Loreline_start`,
`Loreline_save`, `Loreline_restore`, `Loreline_getCharacterField`,
`Loreline_createThread`).

Conventions of the embedding:
- C pointers that are only tested for nullness become `Option` values.
- Byte buffers become `List Char`.
- Calls into the opaque Haxe engine are modelled as `Except String α`
  parameters: `.ok` is a normal return, `.error e` is a native engine
  exception raised by that call.  A boundary function that wraps such a
  call in `try/catch` maps `.error` to its fallback value; a boundary
  function with no handler propagates it as an `Outcome.exn`.
- The worker thread's queue and the dispatch-out buffer become explicit
  lists; executing a task is recorded in a returned trace instead of
  performing side effects.
-/

namespace LorelineBridge

/-! ## Loreline_StringData / Loreline_String

Mirrors `linc_createStringData`, `linc_retainStringData`,
`linc_releaseStringData` and the `Loreline_String` member functions.
`StringData` is the heap block `{refCount; len; data}`; a
`Loreline_String`'s `ptr` field is `Option StringData` at the value level
(for the observable accessors of C10) and, for the lifetime scenarios of
C8, a `Bool` flag telling whether the string points at the single heap
cell of a `StrHeap`.
-/

structure StringData where
  refCount : Int
  len : Nat
  data : List Char
deriving DecidableEq, Repr

/-- `linc_createStringData(s, len)`: returns null for a null input pointer,
otherwise allocates a fresh block with `refCount = 1` holding a copy of
the bytes. -/
def linc_createStringData : Option (List Char) → Option StringData
  | none => none
  | some bytes => some { refCount := 1, len := bytes.length, data := bytes }

/-- Default constructor `Loreline_String()` — `ptr(nullptr)`. -/
def Loreline_String.mkDefault : Option StringData := none

/-- Constructor `Loreline_String(const char* s)` —
`ptr(s ? linc_createStringData(s, strlen(s)) : nullptr)`. -/
def Loreline_String.fromCStr : Option (List Char) → Option StringData
  | none => none
  | some bytes => linc_createStringData (some bytes)

/-- `Loreline_String::c_str()` — `ptr ? ptr->data : nullptr`. -/
def Loreline_String.c_str : Option StringData → Option (List Char)
  | some d => some d.data
  | none => none

/-- `Loreline_String::length()` — `ptr ? ptr->len : 0`. -/
def Loreline_String.length : Option StringData → Nat
  | some d => d.len
  | none => 0

/-- `Loreline_String::isNull()` — `ptr == nullptr`. -/
def Loreline_String.isNull (p : Option StringData) : Bool := p.isNone

/-- `Loreline_String::operator bool()` — `ptr != nullptr`. -/
def Loreline_String.toBool (p : Option StringData) : Bool := p.isSome

/-! ### Lifetime model (single shared buffer)

`StrHeap` is the state of one shared `Loreline_StringData` allocation:
`cell = some d` while the block is allocated, `none` once `free` ran;
`freeEvents` counts how many times `free` was called on the block.
A `Loreline_String` value is its `ptr` field: `true` if it points at the
block, `false` if null. -/

structure StrHeap where
  cell : Option StringData
  freeEvents : Nat
deriving DecidableEq, Repr

/-- `linc_retainStringData(d)` — `if (d) d->refCount.fetch_add(1)`. -/
def linc_retainStringData (h : StrHeap) (ptr : Bool) : StrHeap :=
  if ptr then
    match h.cell with
    | some d => { h with cell := some { d with refCount := d.refCount + 1 } }
    | none => h
  else h

/-- `linc_releaseStringData(d)` — `if (d && d->refCount.fetch_sub(1) == 1) free(d)`:
decrements, and frees the block exactly when the previous count was 1. -/
def linc_releaseStringData (h : StrHeap) (ptr : Bool) : StrHeap :=
  if ptr then
    match h.cell with
    | some d =>
      if d.refCount = 1 then { cell := none, freeEvents := h.freeEvents + 1 }
      else { h with cell := some { d with refCount := d.refCount - 1 } }
    | none => h
  else h

/-- Copy constructor `Loreline_String(const Loreline_String& o)` —
`ptr(o.ptr)` then `linc_retainStringData(ptr)`.  Returns the updated heap
and the new string's `ptr`. -/
def Loreline_String.copyCtor (h : StrHeap) (src : Bool) : StrHeap × Bool :=
  (linc_retainStringData h src, src)

/-- Move constructor `Loreline_String(Loreline_String&& o)` —
`ptr(o.ptr)` then `o.ptr = nullptr`.  Returns the (unchanged) heap, the
new string's `ptr`, and the source's `ptr` afterwards. -/
def Loreline_String.moveCtor (h : StrHeap) (src : Bool) : StrHeap × Bool × Bool :=
  (h, src, false)

/-- Destructor `~Loreline_String()` — `linc_releaseStringData(ptr)`. -/
def Loreline_String.dtor (h : StrHeap) (ptr : Bool) : StrHeap :=
  linc_releaseStringData h ptr

/-- Copy one original string `n` times (each copy's `ptr` is `true`). -/
def copyNtimes : Nat → StrHeap → StrHeap
  | 0, h => h
  | n + 1, h => copyNtimes n (Loreline_String.copyCtor h true).1

/-- Destroy `n` strings that all point at the shared buffer. -/
def destroyN : Nat → StrHeap → StrHeap
  | 0, h => h
  | n + 1, h => destroyN n (Loreline_String.dtor h true)

/-- Heap right after `Loreline_String(bytes, len)` constructed the one
original string. -/
def initialHeap (bytes : List Char) : StrHeap :=
  { cell := linc_createStringData (some bytes), freeEvents := 0 }

/-! ## Interpreter handle and the pending continuation

Mirrors `struct Loreline_Interpreter` (fields `obj`, `pendingCb` and the
GC roots it registers) together with `setPendingCallback`, `linc_advance`
and `linc_select`.  Haxe objects are identified by `Nat`; `roots` is the
list of callback objects currently registered as GC roots by this
handle's pending-callback slot. -/

structure Loreline_Interpreter where
  obj : Option Nat
  pendingCb : Option Nat
  roots : List Nat
deriving DecidableEq, Repr

/-- `Loreline_Interpreter::setPendingCallback(cb)`:
un-roots and clears any previous pending callback, stores `cb`, and
roots it when non-null. -/
def Loreline_Interpreter.setPendingCallback
    (h : Loreline_Interpreter) (cb : Option Nat) : Loreline_Interpreter :=
  let h1 :=
    match h.pendingCb with
    | some c => { h with pendingCb := none, roots := h.roots.erase c }
    | none => h
  let h2 := { h1 with pendingCb := cb }
  match cb with
  | some c => { h2 with roots := c :: h2.roots }
  | none => h2

/-- Trace entry for a call into the engine: running a stored continuation
callback, without or with an integer choice index. -/
inductive EngineCall where
  | runCb (cb : Nat)
  | runCbIdx (cb : Nat) (index : Int)
deriving DecidableEq, Repr

/-- `linc_advance()` — reads `s_dispatchInterp`; returns the updated
handle and the trace of engine continuation invocations.  A null handle
or no pending callback is an early return with an empty trace; otherwise
the callback is cleared first and then run (`cb->__run()`). -/
def linc_advance (h : Option Loreline_Interpreter) :
    Option Loreline_Interpreter × List EngineCall :=
  match h with
  | none => (none, [])
  | some h =>
    match h.pendingCb with
    | none => (some h, [])
    | some cb => (some (h.setPendingCallback none), [EngineCall.runCb cb])

/-- `linc_select(index)` — like `linc_advance` but runs
`cb->__run(index)` with the caller's index passed through verbatim. -/
def linc_select (h : Option Loreline_Interpreter) (index : Int) :
    Option Loreline_Interpreter × List EngineCall :=
  match h with
  | none => (none, [])
  | some h =>
    match h.pendingCb with
    | none => (some h, [])
    | some cb => (some (h.setPendingCallback none), [EngineCall.runCbIdx cb index])

/-! ## Worker thread (`Loreline_Thread`)

The task queue holds plain tasks (from `schedule`) and wrapped tasks
(from `scheduleSync`, which signal the enqueuer's completion flag after
running).  Tasks are identified by `Nat`. -/

inductive QTask where
  | plain (t : Nat)
  | wrapped (t : Nat)
deriving DecidableEq, Repr

/-- `Loreline_Thread::schedule(task)` — appends to the FIFO. -/
def Loreline_Thread.schedule (q : List QTask) (t : Nat) : List QTask :=
  q ++ [QTask.plain t]

/-- The enqueue step of `Loreline_Thread::scheduleSync(task)` — appends
the wrapped task (run `task`, then set the private completed flag and
notify the waiting caller). -/
def Loreline_Thread.scheduleSyncEnqueue (q : List QTask) (t : Nat) : List QTask :=
  q ++ [QTask.wrapped t]

/-- The worker loop (`threadLoop`) processing the FIFO front-to-back, cut
off at the point where the caller blocked in `scheduleSync` is woken:
returns the tasks executed up to and including the wrapped task that set
the completion flag, and whether the flag was set at all. -/
def execUntilCompleted : List QTask → List Nat × Bool
  | [] => ([], false)
  | QTask.plain t :: rest =>
    let r := execUntilCompleted rest
    (t :: r.1, r.2)
  | QTask.wrapped t :: _ => ([t], true)

/-- `Loreline_Thread::threadLoop` after `~Loreline_Thread` set `stopFlag`
(with no further producers): the loop's exit test is
`if (stopFlag && taskQueue.empty()) break;`, so with the stop flag set it
pops and runs queued tasks while the queue is non-empty and only then
exits.  Returns the tasks executed after the stop flag was set. -/
def threadLoopStopped : List Nat → List Nat
  | [] => []
  | t :: rest => t :: threadLoopStopped rest

/-- `~Loreline_Thread()`: sets `stopFlag`, notifies the worker, joins it;
the worker then behaves as `threadLoopStopped` on the remaining queue.
Returns the tasks the worker still executes before the join completes. -/
def Loreline_Thread.destructorRun (queue : List Nat) : List Nat :=
  threadLoopStopped queue

/-! ## Global scheduler state and call scheduling -/

/-- The static bridge state: `linc_Loreline_useInternalThread` and
`linc_Loreline_thread` (a worker identified by its task queue, or null). -/
structure BridgeState where
  useInternalThread : Bool
  thread : Option (List QTask)
deriving DecidableEq, Repr

/-- How a scheduled boundary action was executed. -/
inductive ExecEffect where
  | ranInline (t : Nat)
  | queued (t : Nat)
  | queuedAndWaited (t : Nat)
deriving DecidableEq, Repr

/-- `linc_Loreline_schedule(task)` — `if (useInternalThread && thread)`
enqueue to the worker FIFO, else run the task inline immediately. -/
def linc_Loreline_schedule (s : BridgeState) (t : Nat) : BridgeState × ExecEffect :=
  match s.useInternalThread, s.thread with
  | true, some q => (⟨true, some (Loreline_Thread.schedule q t)⟩, ExecEffect.queued t)
  | b, th => (⟨b, th⟩, ExecEffect.ranInline t)

/-- `linc_Loreline_scheduleSync(task)` — `if (useInternalThread && thread)`
enqueue the wrapped task and block until its completion flag is set, else
run the task inline immediately. -/
def linc_Loreline_scheduleSync (s : BridgeState) (t : Nat) : BridgeState × ExecEffect :=
  match s.useInternalThread, s.thread with
  | true, some q =>
    (⟨true, some (Loreline_Thread.scheduleSyncEnqueue q t)⟩, ExecEffect.queuedAndWaited t)
  | b, th => (⟨b, th⟩, ExecEffect.ranInline t)

/-- `Loreline_createThread()` — `if (useInternalThread) return;` then set
the flag and create the worker (fresh empty queue).  The `Bool` result
records whether a new worker thread was created by this call. -/
def Loreline_createThread (s : BridgeState) : BridgeState × Bool :=
  if s.useInternalThread then (s, false)
  else (⟨true, some []⟩, true)

/-- Iterate `Loreline_createThread` `n` times, counting how many worker
threads were created in total. -/
def Loreline_createThreadN : Nat → BridgeState → BridgeState × Nat
  | 0, s => (s, 0)
  | n + 1, s =>
    let r := Loreline_createThread s
    let r2 := Loreline_createThreadN n r.1
    (r2.1, (if r.2 then 1 else 0) + r2.2)

/-- The static state at process start: no internal thread. -/
def linc_initialState : BridgeState := ⟨false, none⟩

/-! ## Dispatch-out queue (`Loreline_FunctionQueue`)

Callbacks are identified by `Nat`; `env f` lists the callbacks that
callback `f` adds to the queue while it runs (in order). -/

/-- `Loreline_FunctionQueue::add(func)` — `push_back` under the lock. -/
def Loreline_FunctionQueue.add (q : List Nat) (f : Nat) : List Nat := q ++ [f]

/-- The `for (auto& func : tempQueue) func();` loop of `flush`: executes
the saved callbacks front-to-back while their additions (`env`) land in
the live buffer `buf`.  Returns (executed callbacks, final buffer). -/
def flushLoop (env : Nat → List Nat) : List Nat → List Nat → List Nat × List Nat
  | [], buf => ([], buf)
  | f :: rest, buf =>
    let r := flushLoop env rest (buf ++ env f)
    (f :: r.1, r.2)

/-- `Loreline_FunctionQueue::flush()` — early return when the buffer is
empty; otherwise swaps the buffer for an empty one and executes the saved
callbacks.  Returns (executed callbacks in order, buffer after the
flush). -/
def Loreline_FunctionQueue.flush (env : Nat → List Nat) (q : List Nat) :
    List Nat × List Nat :=
  if q.isEmpty then ([], q)
  else flushLoop env q []

/-- `linc_Loreline_dispatchOut(task)` — `if (useInternalThread)` buffer
the callback for a later `flush`, else run it inline now.  Returns
(buffer afterwards, callbacks executed inline). -/
def linc_Loreline_dispatchOut (useInternalThread : Bool) (buf : List Nat) (t : Nat) :
    List Nat × List Nat :=
  if useInternalThread then (Loreline_FunctionQueue.add buf t, [])
  else (buf, [t])

/-! ## Boundary entry points

Each boundary function is modelled over `Except String α` parameters for
the engine calls it makes.  The result is an `Outcome` paired with a
`Bool` recording whether the engine was invoked at all (the early null
guards return before any engine call). -/

/-- How a boundary call terminates, seen by the native caller:
`abort` (process abort), `exn e` (a native engine exception escaped the
boundary function), or `ok a` (normal return of `a`). -/
inductive Outcome (α : Type) where
  | abort : Outcome α
  | exn (e : String) : Outcome α
  | ok (a : α) : Outcome α
deriving DecidableEq, Repr

/-- `Loreline_Value` (tagged union).  The float payload is abstracted. -/
inductive Loreline_Value where
  | nullVal
  | intVal (i : Int)
  | floatVal
  | boolVal (b : Bool)
  | strVal (s : Option (List Char))
deriving DecidableEq, Repr

/-- `Loreline_parse(input, filePath, fileHandler, data)` — `handle`
starts as null; the engine parse call sits in a `try` block whose `catch`
logs and falls through, so an engine exception yields a null return.
A non-null parse result is pinned into a fresh `Loreline_Script`
(identified by the engine object id). -/
def Loreline_parse (engineParse : Except String (Option Nat)) :
    Outcome (Option Nat) × Bool :=
  match engineParse with
  | .ok (some s) => (.ok (some s), true)
  | .ok none => (.ok none, true)
  | .error _ => (.ok none, true)

/-- `Loreline_play(script, …)` — null script returns null; otherwise a
fresh `Loreline_Interpreter` handle is allocated before the `try` block,
the engine play call runs inside `try/catch` (the catch only logs), and
the handle is returned either way: with the interpreter object pinned on
success, with no pinned object after a caught exception. -/
def Loreline_play (script : Option Nat) (enginePlay : Except String Nat) :
    Outcome (Option Loreline_Interpreter) × Bool :=
  match script with
  | none => (.ok none, false)
  | some _ =>
    match enginePlay with
    | .ok o => (.ok (some ⟨some o, none, []⟩), true)
    | .error _ => (.ok (some ⟨none, none, []⟩), true)

/-- `Loreline_resume(script, …, saveData, …)` — null script or null
save data returns null.  `Json_obj::parse(hxSaveStr)` runs before the
`try` block, so an exception it raises is not caught; the engine resume
call runs inside `try/catch` like `Loreline_play`. -/
def Loreline_resume (script : Option Nat) (saveData : Option (List Char))
    (jsonParse : Except String Nat) (engineResume : Except String Nat) :
    Outcome (Option Loreline_Interpreter) × Bool :=
  match script, saveData with
  | some _, some _ =>
    match jsonParse with
    | .error e => (.exn e, true)
    | .ok _ =>
      match engineResume with
      | .ok o => (.ok (some ⟨some o, none, []⟩), true)
      | .error _ => (.ok (some ⟨none, none, []⟩), true)
  | _, _ => (.ok none, false)

/-- `Loreline_start(interp, beatName)` — `if (!interp) return;`, then
calls `hxInterp->start(...)` with no exception handler. -/
def Loreline_start (interp : Option Loreline_Interpreter)
    (engineStart : Except String Unit) : Outcome Unit × Bool :=
  match interp with
  | none => (.ok (), false)
  | some _ =>
    match engineStart with
    | .ok _ => (.ok (), true)
    | .error e => (.exn e, true)

/-- `Loreline_save(interp)` — `if (!interp) return Loreline_String();`,
then calls `hxInterp->save()` / `Json_obj::stringify` with no exception
handler. -/
def Loreline_save (interp : Option Loreline_Interpreter)
    (engineSave : Except String (List Char)) :
    Outcome (Option (List Char)) × Bool :=
  match interp with
  | none => (.ok none, false)
  | some _ =>
    match engineSave with
    | .ok s => (.ok (some s), true)
    | .error e => (.exn e, true)

/-- `Loreline_restore(interp, saveData)` —
`if (!interp || !saveData) return;`, then `Json_obj::parse`,
`hxInterp->restore` and `hxInterp->resume` with no exception handler. -/
def Loreline_restore (interp : Option Loreline_Interpreter)
    (saveData : Option (List Char)) (engineRestore : Except String Unit) :
    Outcome Unit × Bool :=
  match interp, saveData with
  | some _, some _ =>
    match engineRestore with
    | .ok _ => (.ok (), true)
    | .error e => (.exn e, true)
  | _, _ => (.ok (), false)

/-- `Loreline_getCharacterField(interp, character, field)` —
`if (!interp || !character || !field) return Loreline_Value::null_val();`,
then calls `hxInterp->getCharacterField(...)` with no exception
handler. -/
def Loreline_getCharacterField (interp : Option Loreline_Interpreter)
    (character fieldName : Option (List Char))
    (engineGet : Except String Loreline_Value) : Outcome Loreline_Value × Bool :=
  match interp, character, fieldName with
  | some _, some _, some _ =>
    match engineGet with
    | .ok v => (.ok v, true)
    | .error e => (.exn e, true)
  | _, _, _ => (.ok Loreline_Value.nullVal, false)

/-! ## Helper lemmas -/

lemma setPendingCallback_some_eq (obj : Option Nat) (c : Nat) (roots : List Nat)
    (cb : Option Nat) :
    Loreline_Interpreter.setPendingCallback ⟨obj, some c, roots⟩ cb =
      ⟨obj, cb, cb.toList ++ roots.erase c⟩ := by
  cases cb <;> simp [Loreline_Interpreter.setPendingCallback]

lemma setPendingCallback_pendingCb (h : Loreline_Interpreter) (cb : Option Nat) :
    (h.setPendingCallback cb).pendingCb = cb := by
  obtain ⟨obj, hp, roots⟩ := h
  cases hp <;> cases cb <;> simp [Loreline_Interpreter.setPendingCallback]

lemma copyNtimes_cell (n : Nat) (d : StringData) (f : Nat) :
    copyNtimes n ⟨some d, f⟩ = ⟨some ⟨d.refCount + n, d.len, d.data⟩, f⟩ := by
  induction n generalizing d with
  | zero => simp [copyNtimes]
  | succ n ih =>
    rw [copyNtimes]
    show copyNtimes n (linc_retainStringData ⟨some d, f⟩ true) = _
    rw [show linc_retainStringData ⟨some d, f⟩ true =
          ⟨some ⟨d.refCount + 1, d.len, d.data⟩, f⟩ from rfl]
    rw [ih ⟨d.refCount + 1, d.len, d.data⟩]
    have : d.refCount + 1 + (n : Int) = d.refCount + ((n : Nat) + 1 : Nat) := by
      push_cast
      ring
    rw [this]

lemma destroyN_frees_once (n : Nat) (len : Nat) (dat : List Char) :
    ∀ f, destroyN (n + 1) ⟨some ⟨(n : Int) + 1, len, dat⟩, f⟩ = ⟨none, f + 1⟩ := by
  induction n with
  | zero =>
    intro f
    simp [destroyN, Loreline_String.dtor, linc_releaseStringData]
  | succ n ih =>
    intro f
    rw [destroyN]
    show destroyN (n + 1)
        (linc_releaseStringData ⟨some ⟨((n : Nat) + 1 : Nat) + 1, len, dat⟩, f⟩ true) = _
    have hne : (((n : Nat) + 1 : Nat) : Int) + 1 ≠ 1 := by push_cast; omega
    rw [show linc_releaseStringData ⟨some ⟨((n : Nat) + 1 : Nat) + 1, len, dat⟩, f⟩ true =
          ⟨some ⟨(((n : Nat) + 1 : Nat) : Int) + 1 - 1, len, dat⟩, f⟩ by
      simp [linc_releaseStringData, hne]
      omega]
    have : (((n : Nat) + 1 : Nat) : Int) + 1 - 1 = (n : Int) + 1 := by push_cast; ring
    rw [this]
    exact ih f

lemma threadLoopStopped_id (q : List Nat) : threadLoopStopped q = q := by
  induction q with
  | nil => rfl
  | cons t rest ih => rw [threadLoopStopped, ih]

lemma execUntilCompleted_plain_wrapped (ts : List Nat) (t : Nat) :
    execUntilCompleted (ts.map QTask.plain ++ [QTask.wrapped t]) = (ts ++ [t], true) := by
  induction ts with
  | nil => rfl
  | cons x xs ih => simp [execUntilCompleted, ih]

lemma flushLoop_spec (env : Nat → List Nat) (temp : List Nat) :
    ∀ buf, flushLoop env temp buf = (temp, buf ++ (temp.map env).flatten) := by
  induction temp with
  | nil => intro buf; simp [flushLoop]
  | cons f rest ih => intro buf; simp [flushLoop, ih, List.append_assoc]

lemma createThreadN_already (n : Nat) (th : Option (List QTask)) :
    Loreline_createThreadN n ⟨true, th⟩ = (⟨true, th⟩, 0) := by
  induction n with
  | zero => rfl
  | succ n ih => simp [Loreline_createThreadN, Loreline_createThread, ih]

/-! ## Claims -/

/-- Claim C10: a `Loreline_String` built with no argument or from a null
`char*` is null — `isNull()` is true, `operator bool` is false, `c_str()`
is a null pointer, `length()` is 0 — while a string built from a non-null
pointer, even one of length zero, is non-null; so the null string is
observably distinct from the empty string. -/
theorem null_string_observables :
    Loreline_String.isNull Loreline_String.mkDefault = true ∧
    Loreline_String.toBool Loreline_String.mkDefault = false ∧
    Loreline_String.c_str Loreline_String.mkDefault = none ∧
    Loreline_String.length Loreline_String.mkDefault = 0 ∧
    Loreline_String.fromCStr none = Loreline_String.mkDefault ∧
    (∀ bytes, Loreline_String.isNull (Loreline_String.fromCStr (some bytes)) = false) ∧
    (∀ bytes, Loreline_String.toBool (Loreline_String.fromCStr (some bytes)) = true) ∧
    (∀ bytes, Loreline_String.c_str (Loreline_String.fromCStr (some bytes)) = some bytes) ∧
    Loreline_String.isNull (Loreline_String.fromCStr (some [])) = false ∧
    Loreline_String.length (Loreline_String.fromCStr (some [])) = 0 := by
  refine ⟨rfl, rfl, rfl, rfl, rfl, ?_, ?_, ?_, rfl, rfl⟩ <;>
    intro bytes <;>
    simp [Loreline_String.fromCStr, linc_createStringData, Loreline_String.isNull,
      Loreline_String.toBool, Loreline_String.c_str]

/-- Claim C8: the ref-counted string obeys: construct-from-bytes sets the
count to 1; copy increments the shared count and keeps the same buffer
(no reallocation, no free); move transfers the pointer and nulls the
source without touching the count; destruction decrements and frees the
buffer exactly when the count reaches zero; hence copying a string `n`
times and destroying all `n + 1` references frees the buffer exactly
once. -/
theorem refcounted_string_lifecycle :
    (∀ bytes, linc_createStringData (some bytes) = some ⟨1, bytes.length, bytes⟩) ∧
    (∀ d f, Loreline_String.copyCtor ⟨some d, f⟩ true =
      (⟨some ⟨d.refCount + 1, d.len, d.data⟩, f⟩, true)) ∧
    (∀ h s, Loreline_String.moveCtor h s = (h, s, false)) ∧
    (∀ d f, Loreline_String.dtor ⟨some d, f⟩ true =
      if d.refCount = 1 then ⟨none, f + 1⟩
      else ⟨some ⟨d.refCount - 1, d.len, d.data⟩, f⟩) ∧
    (∀ n bytes, destroyN (n + 1) (copyNtimes n (initialHeap bytes)) = ⟨none, 1⟩) := by
  refine ⟨fun bytes => rfl, ?_, fun h s => rfl, ?_, ?_⟩
  · intro d f
    obtain ⟨rc, len, dat⟩ := d
    rfl
  · intro d f
    obtain ⟨rc, len, dat⟩ := d
    by_cases hrc : rc = 1 <;>
      simp [Loreline_String.dtor, linc_releaseStringData, hrc]
  · intro n bytes
    have h0 : initialHeap bytes = ⟨some ⟨1, bytes.length, bytes⟩, 0⟩ := rfl
    rw [h0, copyNtimes_cell]
    have : (1 : Int) + (n : Nat) = (n : Int) + 1 := by ring
    rw [show (⟨some ⟨(1 : Int) + (n : Nat), bytes.length, bytes⟩, 0⟩ : StrHeap) =
          ⟨some ⟨(n : Int) + 1, bytes.length, bytes⟩, 0⟩ by rw [this]]
    exact destroyN_frees_once n bytes.length bytes 0

/-- Claim C1: a session holds at most one pending continuation: setting a
new pending callback replaces and un-roots any previous one, and calling
`linc_advance` / `linc_select` with no pending continuation (or no
dispatch handle) is a no-op that leaves the handle untouched and invokes
no engine continuation; immediately repeating `advance`/`select` after a
call invokes nothing, since the first call cleared the pending
callback. -/
theorem pending_continuation_protocol :
    (∀ h cb, (Loreline_Interpreter.setPendingCallback h cb).pendingCb = cb) ∧
    (∀ obj c roots cb, Loreline_Interpreter.setPendingCallback ⟨obj, some c, roots⟩ cb =
      ⟨obj, cb, cb.toList ++ roots.erase c⟩) ∧
    (∀ obj c cb, Loreline_Interpreter.setPendingCallback ⟨obj, some c, [c]⟩ cb =
      ⟨obj, cb, cb.toList⟩) ∧
    linc_advance none = (none, []) ∧
    (∀ i, linc_select none i = (none, [])) ∧
    (∀ obj roots, linc_advance (some ⟨obj, none, roots⟩) = (some ⟨obj, none, roots⟩, [])) ∧
    (∀ obj roots i, linc_select (some ⟨obj, none, roots⟩) i = (some ⟨obj, none, roots⟩, [])) ∧
    (∀ h, linc_advance (linc_advance (some h)).1 = ((linc_advance (some h)).1, [])) ∧
    (∀ h i j, linc_select (linc_select (some h) i).1 j = ((linc_select (some h) i).1, [])) := by
  refine ⟨setPendingCallback_pendingCb, setPendingCallback_some_eq, ?_, rfl,
    fun i => rfl, fun obj roots => rfl, fun obj roots i => rfl, ?_, ?_⟩
  · intro obj c cb
    rw [setPendingCallback_some_eq]
    simp
  · intro h
    obtain ⟨obj, hp, roots⟩ := h
    cases hp with
    | none => rfl
    | some cb => simp [linc_advance, setPendingCallback_some_eq]
  · intro h i j
    obtain ⟨obj, hp, roots⟩ := h
    cases hp with
    | none => rfl
    | some cb => simp [linc_select, setPendingCallback_some_eq]

/-- Claim C5 (counterexample): with a pending two-option choice
(`optionCount = 2`, continuation callback object `7`), `linc_select(-1)`
and `linc_select(2)` both invoke the engine continuation with the
out-of-range index — the bridge performs no range check, contradicting
"deterministically rejected and does not resume the engine with an
out-of-range index". -/
theorem select_out_of_range_counterexample :
    (linc_select (some ⟨some 0, some 7, [7]⟩) (-1)).2 = [EngineCall.runCbIdx 7 (-1)] ∧
    (linc_select (some ⟨some 0, some 7, [7]⟩) 2).2 = [EngineCall.runCbIdx 7 2] := by
  exact ⟨rfl, rfl⟩

/-- Claim C5 (amended): `linc_select(i)` performs no bounds validation:
whenever a continuation is pending it clears it and resumes the engine
with `i` passed through verbatim — for every `i`, including `-1` and
`optionCount`; only a call with no pending continuation is rejected (as
a no-op). -/
theorem select_passthrough_unvalidated :
    (∀ obj c roots i, linc_select (some ⟨obj, some c, roots⟩) i =
      (some (Loreline_Interpreter.setPendingCallback ⟨obj, some c, roots⟩ none),
        [EngineCall.runCbIdx c i])) ∧
    (∀ obj roots i, linc_select (some ⟨obj, none, roots⟩) i =
      (some ⟨obj, none, roots⟩, [])) := by
  exact ⟨fun obj c roots i => rfl, fun obj roots i => rfl⟩

/-- Claim C2 (counterexample): `Loreline_save` and `Loreline_restore`
contain no `try/catch` — an engine exception raised inside them escapes
the boundary (`Outcome.exn`), contradicting "no such call ever lets a
native engine exception propagate to the caller". -/
theorem save_restore_exception_counterexample :
    Loreline_save (some ⟨some 0, none, []⟩) (Except.error "engine failure") =
      (Outcome.exn "engine failure", true) ∧
    Loreline_restore (some ⟨some 0, none, []⟩) (some [])
        (Except.error "engine failure") =
      (Outcome.exn "engine failure", true) := by
  exact ⟨rfl, rfl⟩

/-- Claim C2 (amended): only `Loreline_parse`, `Loreline_play` and the
engine-resume call of `Loreline_resume` sit inside `try/catch`: parse
converts an engine exception to a null return, play/resume to a returned
handle with no pinned engine object.  The save-data JSON parse step of
`Loreline_resume` runs before its `try` block, and `Loreline_save` /
`Loreline_restore` have no handler at all, so an engine exception in any
of those propagates to the caller as a native exception. -/
theorem boundary_exception_policy :
    (∀ e, Loreline_parse (Except.error e) = (Outcome.ok none, true)) ∧
    (∀ p, Loreline_parse (Except.ok p) = (Outcome.ok p, true)) ∧
    (∀ s e, Loreline_play (some s) (Except.error e) =
      (Outcome.ok (some ⟨none, none, []⟩), true)) ∧
    (∀ s sd j e, Loreline_resume (some s) (some sd) (Except.ok j) (Except.error e) =
      (Outcome.ok (some ⟨none, none, []⟩), true)) ∧
    (∀ s sd e r, Loreline_resume (some s) (some sd) (Except.error e) r =
      (Outcome.exn e, true)) ∧
    (∀ h e, Loreline_save (some h) (Except.error e) = (Outcome.exn e, true)) ∧
    (∀ h sd e, Loreline_restore (some h) (some sd) (Except.error e) =
      (Outcome.exn e, true)) := by
  refine ⟨fun e => rfl, ?_, fun s e => rfl, fun s sd j e => rfl,
    fun s sd e r => rfl, fun h e => rfl, fun h sd e => rfl⟩
  intro p
  cases p <;> rfl

/-- Claim C3 (counterexample): a task (id `0`) still queued when
`~Loreline_Thread` runs is executed by the worker before it exits — the
loop's exit test `if (stopFlag && taskQueue.empty()) break;` drains the
queue first, contradicting "every action still sitting in the work queue
at shutdown is not executed". -/
theorem shutdown_drop_counterexample :
    Loreline_Thread.destructorRun [0] = [0] ∧
    Loreline_Thread.destructorRun [0] ≠ ([] : List Nat) := by
  exact ⟨rfl, by decide⟩

/-- Claim C3 (amended): shutdown sets the stop flag, wakes the worker and
joins it, and the worker then executes every action still queued, in FIFO
order, before exiting (drain semantics, not drop semantics). -/
theorem shutdown_drains_queue :
    ∀ q : List Nat, Loreline_Thread.destructorRun q = q := by
  intro q
  exact threadLoopStopped_id q

/-- Claim C4 (counterexample): `Loreline_start` and `Loreline_save`
called with a null handle return normally (`Outcome.ok`, engine not
invoked) instead of aborting — the null-handle guards are graceful early
returns, contradicting "the call aborts rather than continuing". -/
theorem null_handle_abort_counterexample :
    Loreline_start none (Except.ok ()) = (Outcome.ok (), false) ∧
    (Loreline_start none (Except.ok ())).1 ≠ Outcome.abort ∧
    Loreline_save none (Except.ok []) = (Outcome.ok none, false) ∧
    (Loreline_save none (Except.ok [])).1 ≠ Outcome.abort := by
  refine ⟨rfl, ?_, rfl, ?_⟩ <;> decide

/-- Claim C4 (amended): passing a null handle to a boundary operation
that requires one (`Loreline_start`, `Loreline_save`, `Loreline_restore`,
`Loreline_getCharacterField`) is handled by an early guard: the call
returns a no-op (or null value) without invoking the engine, and never
aborts.  The same guard covers null `character`/`field` arguments of
`Loreline_getCharacterField`. -/
theorem null_handle_noop :
    (∀ eng, Loreline_start none eng = (Outcome.ok (), false)) ∧
    (∀ eng, Loreline_save none eng = (Outcome.ok none, false)) ∧
    (∀ sd eng, Loreline_restore none sd eng = (Outcome.ok (), false)) ∧
    (∀ ch fl eng, Loreline_getCharacterField none ch fl eng =
      (Outcome.ok Loreline_Value.nullVal, false)) ∧
    (∀ h fl eng, Loreline_getCharacterField (some h) none fl eng =
      (Outcome.ok Loreline_Value.nullVal, false)) ∧
    (∀ h ch eng, Loreline_getCharacterField (some h) ch none eng =
      (Outcome.ok Loreline_Value.nullVal, false)) := by
  refine ⟨fun eng => rfl, fun eng => rfl, ?_, ?_, ?_, ?_⟩
  · intro sd eng
    cases sd <;> rfl
  · intro ch fl eng
    cases ch <;> cases fl <;> rfl
  · intro h fl eng
    cases fl <;> rfl
  · intro h ch eng
    cases ch <;> rfl

/-- Claim C6: with no dedicated worker (flag off, or no thread object)
both scheduling modes execute the action inline on the calling thread;
with a worker active, `linc_Loreline_schedule` appends the action to the
worker FIFO (fire-and-forget) and `linc_Loreline_scheduleSync` appends a
wrapped action and blocks the caller, who is unblocked exactly after the
worker has executed all previously queued actions and then the action
itself. -/
theorem call_scheduler_modes :
    (∀ th t, linc_Loreline_schedule ⟨false, th⟩ t = (⟨false, th⟩, ExecEffect.ranInline t)) ∧
    (∀ b t, linc_Loreline_schedule ⟨b, none⟩ t = (⟨b, none⟩, ExecEffect.ranInline t)) ∧
    (∀ th t, linc_Loreline_scheduleSync ⟨false, th⟩ t =
      (⟨false, th⟩, ExecEffect.ranInline t)) ∧
    (∀ b t, linc_Loreline_scheduleSync ⟨b, none⟩ t = (⟨b, none⟩, ExecEffect.ranInline t)) ∧
    (∀ q t, linc_Loreline_schedule ⟨true, some q⟩ t =
      (⟨true, some (q ++ [QTask.plain t])⟩, ExecEffect.queued t)) ∧
    (∀ q t, linc_Loreline_scheduleSync ⟨true, some q⟩ t =
      (⟨true, some (q ++ [QTask.wrapped t])⟩, ExecEffect.queuedAndWaited t)) ∧
    (∀ ts t, execUntilCompleted (ts.map QTask.plain ++ [QTask.wrapped t]) =
      (ts ++ [t], true)) := by
  refine ⟨fun th t => rfl, ?_, fun th t => rfl, ?_, fun q t => rfl, fun q t => rfl,
    execUntilCompleted_plain_wrapped⟩
  · intro b t
    cases b <;> rfl
  · intro b t
    cases b <;> rfl

/-- Claim C7: `flush()` swaps the internal buffer for an empty one before
executing: the callbacks executed by a flush are exactly the ones saved
at the swap, in FIFO order, independent of what the executed callbacks
add; everything added during the flush ends up in the buffer for the next
flush, never executed in this one.  With no dedicated worker,
`linc_Loreline_dispatchOut` runs the callback inline and buffers
nothing. -/
theorem dispatch_out_flush_swap :
    (∀ env q, (Loreline_FunctionQueue.flush env q).1 = if q.isEmpty then [] else q) ∧
    (∀ env q, (Loreline_FunctionQueue.flush env q).2 =
      if q.isEmpty then q else (q.map env).flatten) ∧
    (∀ env env' q, (Loreline_FunctionQueue.flush env q).1 =
      (Loreline_FunctionQueue.flush env' q).1) ∧
    (∀ q f, Loreline_FunctionQueue.add q f = q ++ [f]) ∧
    (∀ buf t, linc_Loreline_dispatchOut false buf t = (buf, [t])) ∧
    (∀ buf t, linc_Loreline_dispatchOut true buf t = (buf ++ [t], [])) := by
  have h1 : ∀ (env : Nat → List Nat) q, (Loreline_FunctionQueue.flush env q).1 =
      if q.isEmpty then [] else q := by
    intro env q
    rw [Loreline_FunctionQueue.flush]
    by_cases hq : q.isEmpty <;> simp [hq, flushLoop_spec]
  refine ⟨h1, ?_, ?_, fun q f => rfl, fun buf t => rfl, fun buf t => rfl⟩
  · intro env q
    rw [Loreline_FunctionQueue.flush]
    by_cases hq : q.isEmpty <;> simp [hq, flushLoop_spec]
  · intro env env' q
    rw [h1, h1]

/-- Claim C9: at most one dedicated worker thread ever exists:
`Loreline_createThread` creates a worker only when the flag is not yet
set; once it is set every later call returns immediately, leaving the
worker and the whole scheduler state unchanged, so the call is idempotent
and `n` calls from the initial state create `min n 1` workers. -/
theorem createThread_idempotent :
    (∀ th, Loreline_createThread ⟨true, th⟩ = (⟨true, th⟩, false)) ∧
    (∀ s, Loreline_createThread (Loreline_createThread s).1 =
      ((Loreline_createThread s).1, false)) ∧
    (∀ n th, (Loreline_createThreadN n ⟨true, th⟩).2 = 0) ∧
    (∀ n, (Loreline_createThreadN n linc_initialState).2 = min n 1) := by
  refine ⟨fun th => rfl, ?_, ?_, ?_⟩
  · intro s
    obtain ⟨u, th⟩ := s
    cases u <;> simp [Loreline_createThread]
  · intro n th
    rw [createThreadN_already]
  · intro n
    cases n with
    | zero => rfl
    | succ n =>
      simp [Loreline_createThreadN, Loreline_createThread, linc_initialState,
        createThreadN_already]

end LorelineBridge
